import Mathlib

/-!
Verification development for the agent-call layer of this repository.

The embedding covers:
- src/hooks/useAgent.ts : extractAgentMessage, detectError, useAgent.callAgent,
  callAgentAPI
- src/utils/aiAgent.ts  : generateUUID, callAIAgent

JavaScript data is modelled by the inductive JSVal; JavaScript exceptions by
JSExn, with computations that can throw living in Except JSExn.  The network
is abstracted by HttpOutcome (the observable outcome of the fetch: a response
with status and body text, or a thrown transport exception).  Reads of the
ambient environment (clock, navigator, window, iframe messaging, React state
setters) do not influence any returned field that the claims mention; the
clock read is kept as an explicit parameter, the others are dropped, as noted
at each definition.

The repository imports src/utils/jsonParser.ts (default export parseLLMJson),
which is not part of the sources; it is modelled from the spec below.
-/

/-- JavaScript runtime values as the agent-call layer observes them:
JSON-decodable data plus undefined.  Numbers are modelled as integers; the
code under verification never constructs or branches on a fractional number. -/
inductive JSVal where
  | undefined
  | null
  | bool (b : Bool)
  | num (n : Int)
  | str (s : String)
  | arr (elems : List JSVal)
  | obj (fields : List (String × JSVal))

/-- JavaScript exceptions: an Error object carrying a message (so that
instanceof Error holds), or any other thrown value. -/
inductive JSExn where
  | jsError (message : String)
  | jsValue (v : JSVal)

/-- Truthiness of a JavaScript value.  NaN does not arise because numbers are
integers. -/
def truthy : JSVal → Bool
  | .undefined => false
  | .null => false
  | .bool b => b
  | .num n => n != 0
  | .str s => !(s == "")
  | .arr _ => true
  | .obj _ => true

/-- First field with the given key, else undefined (JS object property
lookup; the objects built by this code never shadow keys). -/
def findField : List (String × JSVal) → String → JSVal
  | [], _ => .undefined
  | (k, v) :: rest, key => if k == key then v else findField rest key

/-- Property read through an optional chain ( a?.b ): undefined when the
receiver is null or undefined, undefined for a missing key or a primitive
receiver (none of the keys this code reads is a built-in of a primitive). -/
def getProp : JSVal → String → JSVal
  | .obj fields, key => findField fields key
  | _, _ => .undefined

/-- Unguarded property read ( a.b ): throws TypeError on null and undefined,
otherwise as getProp. -/
def getPropE (v : JSVal) (key : String) : Except JSExn JSVal :=
  match v with
  | .null => .error (.jsError ("TypeError: cannot read properties of null (reading " ++ key ++ ")"))
  | .undefined => .error (.jsError ("TypeError: cannot read properties of undefined (reading " ++ key ++ ")"))
  | w => .ok (getProp w key)

/-- JavaScript a || b. -/
def jsOr (a b : JSVal) : JSVal := if truthy a then a else b

/-- Strict comparison x === false. -/
def isFalseVal : JSVal → Bool
  | .bool false => true
  | _ => false

/-- Strict comparison x === "s" for a string literal s. -/
def strictEqStr (v : JSVal) (s : String) : Bool :=
  match v with
  | .str t => t == s
  | _ => false

/-- Test typeof v === "object" (true for plain objects, arrays and null). -/
def typeofIsObject : JSVal → Bool
  | .obj _ => true
  | .arr _ => true
  | .null => true
  | _ => false

/-- Test typeof v === "string". -/
def typeofIsString : JSVal → Bool
  | .str _ => true
  | _ => false

/-- Double-quote character, kept as a named constant. -/
def quoteC : Char := Char.ofNat 34

/-- Backslash character. -/
def backslashC : Char := Char.ofNat 92

/-- Opening-brace character. -/
def lbraceC : Char := Char.ofNat 123

/-- Closing-brace character. -/
def rbraceC : Char := Char.ofNat 125

/-- Opening-bracket character. -/
def lbrackC : Char := Char.ofNat 91

/-- Closing-bracket character. -/
def rbrackC : Char := Char.ofNat 93

/-- JSON whitespace: space, tab, line feed, carriage return. -/
def jsonWsChar (c : Char) : Bool :=
  c == ' ' || c == Char.ofNat 9 || c == Char.ofNat 10 || c == Char.ofNat 13

/-- Drop leading JSON whitespace. -/
def skipWs : List Char → List Char
  | [] => []
  | c :: cs => if jsonWsChar c then skipWs cs else c :: cs

/-- Value of a hexadecimal digit. -/
def hexVal (c : Char) : Option Nat :=
  if '0' ≤ c && c ≤ '9' then some (c.toNat - 48)
  else if 'a' ≤ c && c ≤ 'f' then some (c.toNat - 87)
  else if 'A' ≤ c && c ≤ 'F' then some (c.toNat - 55)
  else none

/-- Single-character JSON string escapes. -/
def escChar (e : Char) : Option Char :=
  if e == quoteC then some quoteC
  else if e == backslashC then some backslashC
  else if e == '/' then some '/'
  else if e == 'b' then some (Char.ofNat 8)
  else if e == 'f' then some (Char.ofNat 12)
  else if e == 'n' then some (Char.ofNat 10)
  else if e == 'r' then some (Char.ofNat 13)
  else if e == 't' then some (Char.ofNat 9)
  else none

/-- Parse the body of a JSON string literal after its opening quote; returns
the decoded characters and the remainder after the closing quote. -/
def parseStrBody : List Char → Option (List Char × List Char)
  | [] => none
  | c :: cs =>
    if c == quoteC then some ([], cs)
    else if c == backslashC then
      match cs with
      | 'u' :: h1 :: h2 :: h3 :: h4 :: cs3 =>
        match hexVal h1, hexVal h2, hexVal h3, hexVal h4, parseStrBody cs3 with
        | some a, some b, some c3, some d, some (out, rem) =>
          some (Char.ofNat (((a * 16 + b) * 16 + c3) * 16 + d) :: out, rem)
        | _, _, _, _, _ => none
      | e :: cs2 =>
        match escChar e, parseStrBody cs2 with
        | some d, some (out, rem) => some (d :: out, rem)
        | _, _ => none
      | [] => none
    else
      match parseStrBody cs with
      | some (out, rem) => some (c :: out, rem)
      | none => none

/-- Split a leading run of decimal digits from the rest. -/
def digitsSplit : List Char → (List Char × List Char)
  | [] => ([], [])
  | c :: cs =>
    if '0' ≤ c && c ≤ '9' then
      match digitsSplit cs with
      | (ds, rest) => (c :: ds, rest)
    else ([], c :: cs)

/-- Decimal value of a digit list. -/
def digitsToNat (acc : Nat) : List Char → Nat
  | [] => acc
  | c :: cs => digitsToNat (acc * 10 + (c.toNat - 48)) cs

/-- Parse an unsigned integer literal; fails on a fractional or exponent
tail (this development exercises no non-integer JSON numbers). -/
def parseNatLit (cs : List Char) : Option (Nat × List Char) :=
  match digitsSplit cs with
  | ([], _) => none
  | (ds, rest) =>
    match rest with
    | e :: _ =>
      if e == '.' || e == 'e' || e == 'E' then none
      else some (digitsToNat 0 ds, rest)
    | [] => some (digitsToNat 0 ds, [])

mutual

/-- Recursive-descent JSON value parser, fuel-bounded. -/
def parseVal (fuel : Nat) (cs : List Char) : Option (JSVal × List Char) :=
  match fuel with
  | 0 => none
  | fuel' + 1 =>
    match cs with
    | [] => none
    | c :: rest =>
      if c == quoteC then
        match parseStrBody rest with
        | some (out, rem) => some (.str (String.mk out), rem)
        | none => none
      else if c == lbraceC then
        match skipWs rest with
        | d :: rest2 =>
          if d == rbraceC then some (.obj [], rest2)
          else
            match parseMembers fuel' (d :: rest2) with
            | some (fs, rem) => some (.obj fs, rem)
            | none => none
        | [] => none
      else if c == lbrackC then
        match skipWs rest with
        | d :: rest2 =>
          if d == rbrackC then some (.arr [], rest2)
          else
            match parseElems fuel' (d :: rest2) with
            | some (es, rem) => some (.arr es, rem)
            | none => none
        | [] => none
      else if c == 'n' then
        match rest with
        | 'u' :: 'l' :: 'l' :: rem => some (.null, rem)
        | _ => none
      else if c == 't' then
        match rest with
        | 'r' :: 'u' :: 'e' :: rem => some (.bool true, rem)
        | _ => none
      else if c == 'f' then
        match rest with
        | 'a' :: 'l' :: 's' :: 'e' :: rem => some (.bool false, rem)
        | _ => none
      else if c == '-' then
        match parseNatLit rest with
        | some (n, rem) => some (.num (-(n : Int)), rem)
        | none => none
      else if '0' ≤ c && c ≤ '9' then
        match parseNatLit (c :: rest) with
        | some (n, rem) => some (.num (n : Int), rem)
        | none => none
      else none
termination_by structural fuel

/-- Object members; cs starts at the (non-whitespace) first key. -/
def parseMembers (fuel : Nat) (cs : List Char) : Option (List (String × JSVal) × List Char) :=
  match fuel with
  | 0 => none
  | fuel' + 1 =>
    match cs with
    | c :: rest =>
      if c == quoteC then
        match parseStrBody rest with
        | some (kout, rem1) =>
          match skipWs rem1 with
          | ':' :: rem2 =>
            match parseVal fuel' (skipWs rem2) with
            | some (v, rem3) =>
              match skipWs rem3 with
              | ',' :: rem4 =>
                match parseMembers fuel' (skipWs rem4) with
                | some (fs, rem5) => some ((String.mk kout, v) :: fs, rem5)
                | none => none
              | d :: rem4 =>
                if d == rbraceC then some ([(String.mk kout, v)], rem4)
                else none
              | [] => none
            | none => none
          | _ => none
        | none => none
      else none
    | [] => none
termination_by structural fuel

/-- Array elements; cs starts at the (non-whitespace) first element. -/
def parseElems (fuel : Nat) (cs : List Char) : Option (List JSVal × List Char) :=
  match fuel with
  | 0 => none
  | fuel' + 1 =>
    match parseVal fuel' cs with
    | some (v, rem1) =>
      match skipWs rem1 with
      | ',' :: rem2 =>
        match parseElems fuel' (skipWs rem2) with
        | some (es, rem3) => some (v :: es, rem3)
        | none => none
      | d :: rem2 =>
        if d == rbrackC then some ([v], rem2)
        else none
      | [] => none
    | none => none
termination_by structural fuel

end

/-- Model of the platform JSON.parse: strict JSON, whole input consumed;
none models the thrown SyntaxError.  Unexercised restrictions: numbers are
integers, and leading-zero rejection is omitted. -/
def jsonParse (s : String) : Option JSVal :=
  match parseVal (s.length + 2) (skipWs s.toList) with
  | some (v, rem) => if (skipWs rem).isEmpty then some v else none
  | none => none

/-- Lowercase hexadecimal digit character for a value below 16. -/
def hexDigitChar (n : Nat) : Char :=
  if n < 10 then Char.ofNat (48 + n) else Char.ofNat (87 + n)

/-- Escape one character for a JSON string literal, as JSON.stringify does. -/
def escJSONChar (c : Char) : String :=
  if c == quoteC then String.mk [backslashC, quoteC]
  else if c == backslashC then String.mk [backslashC, backslashC]
  else if c == Char.ofNat 10 then String.mk [backslashC, 'n']
  else if c == Char.ofNat 13 then String.mk [backslashC, 'r']
  else if c == Char.ofNat 9 then String.mk [backslashC, 't']
  else if c == Char.ofNat 8 then String.mk [backslashC, 'b']
  else if c == Char.ofNat 12 then String.mk [backslashC, 'f']
  else if c.toNat < 32 then
    String.mk [backslashC, 'u', '0', '0', hexDigitChar (c.toNat / 16), hexDigitChar (c.toNat % 16)]
  else String.mk [c]

/-- Render a string as a JSON string literal. -/
def quoteJSON (s : String) : String :=
  "\"" ++ String.join (s.toList.map escJSONChar) ++ "\""

/-- Run of n spaces. -/
def spaces (n : Nat) : String := String.mk (List.replicate n ' ')

mutual

/-- Model of JSON.stringify(v, null, 2) rendered at the given indentation
depth.  A top-level undefined (for which the real call yields undefined, not
a string) is unreachable in this development: both call sites guard the
argument to be truthy. -/
def stringifyAt (indent : Nat) : JSVal → String
  | .undefined => "null"
  | .null => "null"
  | .bool true => "true"
  | .bool false => "false"
  | .num n => toString n
  | .str s => quoteJSON s
  | .arr es =>
    match renderElems (indent + 2) es with
    | [] => "[]"
    | items =>
      "[" ++ "\n" ++ String.intercalate (",\n") items ++ "\n" ++ spaces indent ++ "]"
  | .obj fs =>
    match renderFields (indent + 2) fs with
    | [] => "\x7b\x7d"
    | items =>
      "\x7b" ++ "\n" ++ String.intercalate (",\n") items ++ "\n" ++ spaces indent ++ "\x7d"
termination_by structural v => v

/-- Rendered lines for array elements (undefined renders as null). -/
def renderElems (indent : Nat) : List JSVal → List String
  | [] => []
  | v :: vs => (spaces indent ++ stringifyAt indent v) :: renderElems indent vs
termination_by structural l => l

/-- Rendered lines for object fields; fields holding undefined are omitted. -/
def renderFields (indent : Nat) : List (String × JSVal) → List String
  | [] => []
  | (k, v) :: fs =>
    match v with
    | .undefined => renderFields indent fs
    | w => (spaces indent ++ quoteJSON k ++ ": " ++ stringifyAt indent w) :: renderFields indent fs
termination_by structural l => l

end

/-- Model of JSON.stringify(v, null, 2) as the code calls it. -/
def jsonStringifyPretty (v : JSVal) : String := stringifyAt 0 v

mutual

/-- Model of JavaScript string coercion String(v) / template interpolation. -/
def jsToString : JSVal → String
  | .undefined => "undefined"
  | .null => "null"
  | .bool true => "true"
  | .bool false => "false"
  | .num n => toString n
  | .str s => s
  | .arr es => jsToStringArr es
  | .obj _ => "[object Object]"
termination_by structural v => v

/-- Array toString: elements joined by commas, null and undefined as empty. -/
def jsToStringArr : List JSVal → String
  | [] => ""
  | [v] =>
    match v with
    | .undefined => ""
    | .null => ""
    | w => jsToString w
  | v :: vs =>
    (match v with
     | .undefined => ""
     | .null => ""
     | w => jsToString w) ++ "," ++ jsToStringArr vs
termination_by structural l => l

end

/-- Backtick character. -/
def backtickC : Char := Char.ofNat 96

/-- Test whether the first three characters are backticks (a markdown code
fence); the core String.startsWith does not reduce definitionally, so the
check is written over the character list. -/
def isFence3 : List Char → Bool
  | a :: b :: c :: _ => a == backtickC && b == backtickC && c == backtickC
  | _ => false

/-- Whitespace trim on both ends (the model of String.trim, written over
the character list so that it reduces definitionally). -/
def strTrim (s : String) : String :=
  String.mk ((skipWs ((skipWs s.toList).reverse)).reverse)

/-- Drop characters up to and including the end of the current line. -/
def dropFenceLine : List Char → List Char
  | [] => []
  | c :: cs => if c == Char.ofNat 10 then cs else dropFenceLine cs

/-- Drop a leading markdown code fence: the opening triple backtick and
anything up to and including the end of its line (language tag included). -/
def dropFenceHead (s : String) : String :=
  if isFence3 s.toList then
    String.mk (dropFenceLine ((s.drop 3).toList))
  else s

/-- Drop a trailing markdown code fence. -/
def dropFenceTail (s : String) : String :=
  if isFence3 s.toList.reverse then s.dropRight 3 else s

/-- First suffix starting at a plausible JSON start character. -/
def findStart : List Char → Option (List Char)
  | [] => none
  | c :: cs => if c == lbraceC || c == lbrackC then some (c :: cs) else findStart cs

/-- Scan for the balanced closing bracket by depth counting, respecting
string literals and escape sequences; returns the consumed span. -/
def scanBalance (acc : List Char) (depth : Nat) (inStr esc : Bool) : List Char → Option (List Char)
  | [] => none
  | c :: cs =>
    if inStr then
      if esc then scanBalance (c :: acc) depth true false cs
      else if c == backslashC then scanBalance (c :: acc) depth true true cs
      else if c == quoteC then scanBalance (c :: acc) depth false false cs
      else scanBalance (c :: acc) depth true false cs
    else if c == quoteC then scanBalance (c :: acc) depth true false cs
    else if c == lbraceC || c == lbrackC then scanBalance (c :: acc) (depth + 1) false false cs
    else if c == rbraceC || c == rbrackC then
      if depth ≤ 1 then some ((c :: acc).reverse)
      else scanBalance (c :: acc) (depth - 1) false false cs
    else scanBalance (c :: acc) depth false false cs

/-- Substring from the first plausible JSON start character to its balanced
closing character, when one exists. -/
def balancedSpan (s : String) : Option String :=
  match findStart s.toList with
  | some cs => (scanBalance [] 0 false false cs).map String.mk
  | none => none

/-- True when the next non-whitespace character closes a brace or bracket. -/
def peekClose (cs : List Char) : Bool :=
  match skipWs cs with
  | c :: _ => c == rbraceC || c == rbrackC
  | [] => false

/-- Repair 1: remove commas that directly precede a closing bracket
(whitespace allowed between), outside string literals. -/
def trimTrailingCommas : Bool → Bool → List Char → List Char
  | _, _, [] => []
  | inStr, esc, c :: cs =>
    if inStr then
      if esc then c :: trimTrailingCommas true false cs
      else if c == backslashC then c :: trimTrailingCommas true true cs
      else if c == quoteC then c :: trimTrailingCommas false false cs
      else c :: trimTrailingCommas true false cs
    else if c == quoteC then c :: trimTrailingCommas true false cs
    else if c == ',' && peekClose cs then trimTrailingCommas false false cs
    else c :: trimTrailingCommas false false cs

/-- String-literal state at the end of the text. -/
def endsInString : Bool → Bool → List Char → Bool
  | inStr, _, [] => inStr
  | inStr, esc, c :: cs =>
    if inStr then
      if esc then endsInString true false cs
      else if c == backslashC then endsInString true true cs
      else if c == quoteC then endsInString false false cs
      else endsInString true false cs
    else if c == quoteC then endsInString true false cs
    else endsInString false false cs

/-- Repair 2: close an unterminated string literal. -/
def closeUnterminated (cs : List Char) : List Char :=
  if endsInString false false cs then cs ++ [quoteC] else cs

/-- Closers still owed at the end of the text, innermost first. -/
def missingClosers : List Char → Bool → Bool → List Char → List Char
  | stack, _, _, [] => stack
  | stack, inStr, esc, c :: cs =>
    if inStr then
      if esc then missingClosers stack true false cs
      else if c == backslashC then missingClosers stack true true cs
      else if c == quoteC then missingClosers stack false false cs
      else missingClosers stack true false cs
    else if c == quoteC then missingClosers stack true false cs
    else if c == lbraceC then missingClosers (rbraceC :: stack) false false cs
    else if c == lbrackC then missingClosers (rbrackC :: stack) false false cs
    else if c == rbraceC || c == rbrackC then
      match stack with
      | _ :: st => missingClosers st false false cs
      | [] => missingClosers [] false false cs
    else missingClosers stack false false cs

/-- Repair 3: append closing brackets to match the unclosed depth. -/
def appendClosers (cs : List Char) : List Char :=
  cs ++ missingClosers [] false false cs

/-- Modelled from the spec: src/utils/jsonParser.ts (default export
parseLLMJson, the Tolerant JSON Extractor of spec section 4.1) is imported by
both call modules but is absent from the sources.  Following the spec's
pipeline: strip code fences and surrounding whitespace; attempt a strict
parse; on failure extract the first balanced bracket span (string-aware
depth counting); on failure apply forgiving repairs in order - trim trailing
commas before closing brackets, close an unterminated string literal, append
missing closing brackets - retrying the strict parse after each; if all
fail, return an extraction-failure value carrying a diagnostic message and
the original text, and never throw.  The failure value's fields are the ones
the call sites in useAgent.ts and aiAgent.ts read: success, error,
raw_response.  Repairs apply cumulatively to the balanced span when one
exists, else to the stripped text (the spec leaves this choice open; no
claim depends on it). -/
def parseLLMJson (text : String) : JSVal :=
  let stripped := strTrim (dropFenceTail (dropFenceHead (strTrim text)))
  match jsonParse stripped with
  | some v => v
  | none =>
    let cand := match balancedSpan stripped with
      | some sub => sub
      | none => stripped
    match jsonParse cand with
    | some v => v
    | none =>
      let c1 := String.mk (trimTrailingCommas false false cand.toList)
      match jsonParse c1 with
      | some v => v
      | none =>
        let c2 := String.mk (closeUnterminated c1.toList)
        match jsonParse c2 with
        | some v => v
        | none =>
          let c3 := String.mk (appendClosers c2.toList)
          match jsonParse c3 with
          | some v => v
          | none =>
            .obj [("success", .bool false),
                  ("error", .str "Failed to extract JSON from agent response"),
                  ("raw_response", .str text)]

/-- Observable outcome of the fetch call: a settled HTTP response (status and
body text, res.ok being determined by the status), or a thrown
transport-level exception (which also covers a failure of res.text()). -/
inductive HttpOutcome where
  | resp (status : Nat) (body : String)
  | thrown (e : JSExn)

/-- Response.ok of the fetch API: status in the inclusive range 200-299. -/
def httpOk (status : Nat) : Bool := 200 ≤ status && status ≤ 299

/-- Classified error record of useAgent.ts (interface ErrorDetails).  The
environment-sourced diagnostic fields timestamp, userAgent and url, and the
two stack-trace fields, are omitted: they are read from ambient browser
state and no claim observes them. -/
structure ErrorDetails where
  type : String
  message : JSVal
  raw_response : JSVal
  endpoint : String

/-- Caller-facing result record of useAgent.ts (interface AgentResponse);
an absent optional field is the undefined value. -/
structure AgentResponse where
  success : Bool
  data : JSVal
  message : JSVal
  raw_response : JSVal
  error : Option ErrorDetails

namespace UseAgent

/-- Direct Lyzr Agent API endpoint of useAgent.ts (no trailing slash). -/
def LYZR_API_URL : String := "https://agent-prod.studio.lyzr.ai/v3/inference/chat"

/-- Lines 95-103 of useAgent.ts: the accesses performed on the value that
JSON.parse returned, inside the try block; an unguarded access on a null
parse result throws, which the enclosing catch observes. -/
def parsedChain (parsed : JSVal) : Except JSExn JSVal := do
  let pr ← getPropE parsed "result"
  if truthy (getProp pr "message") then
    return getProp pr "message"
  else
    let pm ← getPropE parsed "message"
    if truthy pm then
      return pm
    else
      let st ← getPropE parsed "status"
      if strictEqStr st "success" && truthy pr then
        if typeofIsString pr then
          return pr
        else
          let prm ← getPropE pr "message"
          return jsOr prm (.str (jsonStringifyPretty pr))
      else
        return .str (jsonStringifyPretty parsed)

/-- Lines 92-107 of useAgent.ts: try JSON.parse on the raw response; on any
throw (SyntaxError from the parse, or TypeError from the accesses on the
parse result) return the raw response itself. -/
def tryParseRaw (rawResponse : JSVal) : JSVal :=
  match jsonParse (jsToString rawResponse) with
  | none => rawResponse
  | some parsed =>
    match parsedChain parsed with
    | .ok v => v
    | .error _ => rawResponse

/-- Lines 90-110 of useAgent.ts: the raw-response fallback of
extractAgentMessage, ending in the fixed string when nothing is usable. -/
def rawFallback (data resp : JSVal) : Except JSExn JSVal := do
  let dataRaw ← getPropE data "raw_response"
  let rawResponse := jsOr (getProp resp "raw_response") dataRaw
  if truthy rawResponse then
    return tryParseRaw rawResponse
  else
    return .str "No response received"

/-- Embedding of extractAgentMessage (useAgent.ts lines 73-111). -/
def extractAgentMessage (data : JSVal) : Except JSExn JSVal := do
  let resp ← getPropE data "response"
  if truthy resp && typeofIsObject resp then
    let s ← getPropE resp "success"
    let e ← getPropE resp "error"
    if isFalseVal s || truthy e then
      rawFallback data resp
    else
      let r ← getPropE resp "result"
      if truthy (getProp r "message") then
        return getProp r "message"
      else
        let m ← getPropE resp "message"
        if truthy m then
          return m
        else if truthy r && typeofIsString r then
          return r
        else if typeofIsString resp then
          return resp
        else
          return .str (jsonStringifyPretty resp)
  else
    rawFallback data resp

/-- Lines 133-144 of useAgent.ts: the top-level API-error check of
detectError. -/
def detectTop (data : JSVal) (endpoint : String) : Except JSExn (Option ErrorDetails) := do
  let s ← getPropE data "success"
  let e ← getPropE data "error"
  if isFalseVal s && truthy e then
    let det ← getPropE data "details"
    let rawB ← getPropE data "raw_response"
    return some { type := "api_error", message := e, raw_response := jsOr det rawB,
                  endpoint := endpoint }
  else
    return none

/-- Embedding of detectError (useAgent.ts lines 117-147); ambient timestamp,
userAgent and url fields are omitted as noted at ErrorDetails. -/
def detectError (data : JSVal) (endpoint : String) : Except JSExn (Option ErrorDetails) := do
  let resp ← getPropE data "response"
  if truthy resp && typeofIsObject resp then
    let s ← getPropE resp "success"
    let e ← getPropE resp "error"
    if isFalseVal s && truthy e then
      let rawA ← getPropE resp "raw_response"
      let rawB ← getPropE data "raw_response"
      return some { type := "parse_error", message := e, raw_response := jsOr rawA rawB,
                    endpoint := endpoint }
    else
      detectTop data endpoint
  else
    detectTop data endpoint

/-- Lines 356-385 of callAgentAPI (textually identical to lines 197-227 of
callAgent): transform the parsed Lyzr response into the internal data
record.  The now argument models the new Date().toISOString() fallback for
the timestamp field (which no later read observes). -/
def transformDataWith (parsed : JSVal) (finalAgentId userId sessionId : JSVal)
    (now : String) (status : Nat) (rawText : String) : JSVal :=
  if httpOk status then
    if isFalseVal (getProp parsed "success") || truthy (getProp parsed "error") then
      .obj [("success", .bool false),
            ("error", jsOr (getProp parsed "error") (.str "Failed to parse agent response")),
            ("raw_response", .str rawText)]
    else
      .obj [("success", .bool true),
            ("response", parsed),
            ("agent_id", jsOr (getProp parsed "agent_id") finalAgentId),
            ("user_id", jsOr (getProp parsed "user_id") userId),
            ("session_id", jsOr (getProp parsed "session_id") sessionId),
            ("timestamp", jsOr (getProp parsed "timestamp") (.str now)),
            ("raw_response", .str rawText)]
  else
    .obj [("success", .bool false),
          ("error", jsOr (jsOr (getProp parsed "error") (getProp parsed "message"))
                         (.str ("API returned status " ++ toString status))),
          ("details", .str rawText),
          ("raw_response", .str rawText)]

/-- Transform with the parsed value produced by the tolerant parser, as the
code computes it ( const parsed = parseLLMJson(rawText) ). -/
def transformData (finalAgentId userId sessionId : JSVal) (now : String)
    (status : Nat) (rawText : String) : JSVal :=
  transformDataWith (parseLLMJson rawText) finalAgentId userId sessionId now status rawText

/-- Lines 387-411 of callAgentAPI (and 229-269 of callAgent): run
detectError on the data record and assemble the returned AgentResponse.
Iframe messaging, the global error callback, the custom onError handler and
the React state setters are fire-and-forget side effects with no influence
on the returned record; they are dropped here. -/
def assembleResult (data : JSVal) (endpoint : String) : Except JSExn AgentResponse := do
  let detected ← detectError data endpoint
  match detected with
  | some errd =>
    let msg ← extractAgentMessage data
    let rawr ← getPropE data "raw_response"
    return { success := false, data := .null, message := msg, raw_response := rawr,
             error := some errd }
  | none =>
    let msg ← extractAgentMessage data
    let respv ← getPropE data "response"
    let rawr ← getPropE data "raw_response"
    return { success := true, data := respv, message := msg, raw_response := rawr,
             error := none }

/-- Catch clause of callAgentAPI (lines 413-436) and of callAgent (lines
271-301): classify the thrown value and build the fixed caller-facing
failure record; the endpoint recorded differs between the two functions. -/
def networkCatch (endpoint : String) (e : JSExn) : AgentResponse :=
  let msg : JSVal :=
    match e with
    | .jsError m => .str m
    | .jsValue _ => .str "Network request failed"
  { success := false, data := .null, message := .str "Failed to connect to agent",
    raw_response := .undefined,
    error := some { type := "network_error", message := msg, raw_response := .undefined,
                    endpoint := endpoint } }

/-- Body of the try block of callAgentAPI: the fetch (abstracted by the
HttpOutcome), the transform, and the assembly of the result. -/
def callAgentAPITry (agentId : String) (userId sessionId : JSVal) (now : String)
    (o : HttpOutcome) : Except JSExn AgentResponse :=
  match o with
  | .thrown e => throw e
  | .resp status rawText =>
    assembleResult (transformData (.str agentId) userId sessionId now status rawText) LYZR_API_URL

/-- Embedding of callAgentAPI (useAgent.ts lines 331-437).  The Except
result makes an exception escaping the function visible; the try/catch turns
every exception thrown inside the body into the network-error record (whose
endpoint field is the literal string slash-api-slash-agent). -/
def callAgentAPI (agentId : String) (userId sessionId : JSVal) (now : String)
    (o : HttpOutcome) : Except JSExn AgentResponse :=
  match callAgentAPITry agentId userId sessionId now o with
  | .ok r => .ok r
  | .error e => .ok (networkCatch "/api/agent" e)

/-- Body of the try block of useAgent().callAgent, lines 178-270: textually
the same transform and assembly as callAgentAPI. -/
def callAgentTry (finalAgentId userId sessionId : JSVal) (now : String)
    (o : HttpOutcome) : Except JSExn AgentResponse :=
  match o with
  | .thrown e => throw e
  | .resp status rawText =>
    assembleResult (transformData finalAgentId userId sessionId now status rawText) LYZR_API_URL

/-- Embedding of useAgent().callAgent (useAgent.ts lines 158-305).  The
three candidate agent ids - the per-call argument, the hook option, and the
VITE_AGENT_ID environment default - are explicit arguments; React state
setters and iframe/global side effects are dropped as in assembleResult. -/
def callAgent (agentId optionsAgentId envAgentId userId sessionId : JSVal)
    (now : String) (o : HttpOutcome) : Except JSExn AgentResponse :=
  let finalAgentId := jsOr (jsOr agentId optionsAgentId) envAgentId
  if !truthy finalAgentId then
    .ok { success := false, data := .null, message := .str "No agent_id provided",
          raw_response := .undefined,
          error := some { type := "api_error", message := .str "No agent_id provided",
                          raw_response := .undefined, endpoint := LYZR_API_URL } }
  else
    match callAgentTry finalAgentId userId sessionId now o with
    | .ok r => .ok r
    | .error e => .ok (networkCatch LYZR_API_URL e)

end UseAgent

/-- Lowercase hexadecimal digit test (0-9 or a-f). -/
def isLowerHexDigit (c : Char) : Bool :=
  ('0' ≤ c && c ≤ '9') || ('a' ≤ c && c ≤ 'f')

namespace AiAgent

/-- Direct Lyzr Agent API endpoint of aiAgent.ts (with trailing slash). -/
def LYZR_API_URL : String := "https://agent-prod.studio.lyzr.ai/v3/inference/chat/"

/-- Template string of generateUUID. -/
def uuidTemplate : String := "xxxxxxxx-xxxx-4xxx-yxxx-xxxxxxxxxxxx"

/-- Replacement for one matched template character: for x the draw itself,
for y the draw masked to (r AND 3) OR 8; both rendered by v.toString(16) as
a lowercase hexadecimal digit. -/
def uuidSub (c : Char) (r : Fin 16) : Char :=
  if c == 'y' then hexDigitChar ((r.val &&& 3) ||| 8) else hexDigitChar r.val

/-- Regex replace of the template with the per-match callback: each matched
x or y consumes the next random draw, left to right. -/
def uuidGo (cs : List Char) (i : Nat) (d : Nat → Fin 16) : List Char :=
  match cs with
  | [] => []
  | c :: rest =>
    if c == 'x' || c == 'y' then uuidSub c (d i) :: uuidGo rest (i + 1) d
    else c :: uuidGo rest i d

/-- Embedding of generateUUID (aiAgent.ts lines 45-51).  Math.random()*16|0
is an integer draw in 0..15; the argument models the successive results of
Math.random. -/
def generateUUID (d : Nat → Fin 16) : String :=
  String.mk (uuidGo uuidTemplate.toList 0 d)

/-- Caller-facing result record of aiAgent.ts (interface AIAgentResponse);
absent optional fields are undefined.  Unlike useAgent.ts, the error field
here is a plain string (or absent), not an ErrorDetails record, and there is
no data field. -/
structure AIAgentResponse where
  success : Bool
  response : JSVal := .undefined
  agent_id : JSVal := .undefined
  user_id : JSVal := .undefined
  session_id : JSVal := .undefined
  timestamp : JSVal := .undefined
  raw_response : JSVal := .undefined
  error : JSVal := .undefined
  details : JSVal := .undefined

/-- Catch clause of callAIAgent (lines 142-149): a fixed error string, the
thrown Error's message (or the string coercion of a non-Error value) in
details; the console.error logging is a dropped side effect. -/
def aiCatch (e : JSExn) : AIAgentResponse :=
  { success := false,
    error := .str "Failed to call AI agent",
    details :=
      match e with
      | .jsError m => .str m
      | .jsValue v => .str (jsToString v) }

/-- Non-ok branch of callAIAgent (lines 126-141): parse the error body with
the tolerant parser, falling back to strict JSON.parse when the tolerant
result is falsy and to a literal record when that parse throws; then read
error, message and details off the result (throwing a TypeError when it is
null, which the outer catch captures). -/
def aiErrorData (status : Nat) (rawText : String) : JSVal :=
  let p := parseLLMJson rawText
  if truthy p then p
  else
    match jsonParse rawText with
    | some v => v
    | none => .obj [("error", jsOr (.str rawText)
                                   (.str ("API returned status " ++ toString status)))]

/-- Reads performed on the parsed error body in the non-ok branch. -/
def aiErrorBranch (status : Nat) (rawText : String) : Except JSExn AIAgentResponse := do
  let errorData : JSVal := aiErrorData status rawText
  let ee ← getPropE errorData "error"
  let em ← getPropE errorData "message"
  let ed ← getPropE errorData "details"
  return { success := false,
           error := jsOr (jsOr ee em) (.str ("API returned status " ++ toString status)),
           details := jsOr ed (.str rawText),
           raw_response := .str rawText }

/-- Ok branch of callAIAgent (lines 101-125): the same parse-failure check
and success record as the transform in useAgent.ts, minus the wrapping. -/
def aiOkBranchWith (parsed : JSVal) (agent_id : String) (user_id session_id : JSVal)
    (now : String) (rawText : String) : AIAgentResponse :=
  if isFalseVal (getProp parsed "success") || truthy (getProp parsed "error") then
    { success := false,
      error := jsOr (getProp parsed "error") (.str "Failed to parse agent response"),
      raw_response := .str rawText }
  else
    { success := true,
      response := parsed,
      agent_id := jsOr (getProp parsed "agent_id") (.str agent_id),
      user_id := jsOr (getProp parsed "user_id") user_id,
      session_id := jsOr (getProp parsed "session_id") session_id,
      timestamp := jsOr (getProp parsed "timestamp") (.str now),
      raw_response := .str rawText }

/-- Ok branch applied to the parsed value the tolerant parser produced. -/
def aiOkBranch (agent_id : String) (user_id session_id : JSVal) (now : String)
    (rawText : String) : AIAgentResponse :=
  aiOkBranchWith (parseLLMJson rawText) agent_id user_id session_id now rawText

/-- Embedding of callAIAgent (aiAgent.ts lines 74-150).  The two successive
generateUUID calls read one stream of Math.random draws; the second call
starts after the 31 draws the first consumed.  The message argument only
feeds the request body, which HttpOutcome abstracts. -/
def callAIAgent (_message agent_id : String) (options : JSVal) (d : Nat → Fin 16)
    (now : String) (o : HttpOutcome) : Except JSExn AIAgentResponse :=
  let body : Except JSExn AIAgentResponse := do
    let user_id := jsOr (getProp options "user_id") (.str ("user-" ++ generateUUID d))
    let session_id := jsOr (getProp options "session_id")
      (.str (agent_id ++ "-" ++ (generateUUID (fun n => d (n + 31))).take 12))
    match o with
    | .thrown e => throw e
    | .resp status rawText =>
      if httpOk status then
        return aiOkBranch agent_id user_id session_id now rawText
      else
        aiErrorBranch status rawText
  match body with
  | .ok r => .ok r
  | .error e => .ok (aiCatch e)

end AiAgent

/-- Nullish values (null and undefined): the receivers on which an
unguarded property read throws a TypeError. -/
def isNullish : JSVal → Bool
  | .null => true
  | .undefined => true
  | _ => false

/-- Position-wise shape check for the UUID claim: hyphens at indices 8, 13,
18 and 23, the literal 4 at index 14, one of 8, 9, a, b at index 19, and a
lowercase hexadecimal digit everywhere else. -/
def validUUIDChar (i : Nat) (c : Char) : Bool :=
  if i == 8 || i == 13 || i == 18 || i == 23 then c == '-'
  else if i == 14 then c == '4'
  else if i == 19 then c == '8' || c == '9' || c == 'a' || c == 'b'
  else isLowerHexDigit c

/-- Full shape check for the UUID claim: 36 characters, each position
satisfying validUUIDChar. -/
def isValidUUID (s : String) : Bool :=
  s.length == 36 && (s.toList.enum.all fun p => validUUIDChar p.1 p.2)

/-- Stated from the spec for comparison (section 4.2 step 4): the
five-branch extraction-priority order applied to the successfully parsed
value itself - (a) nested result.message, (b) nested message, (c) nested
result when it is a plain string, (d) the whole value when it is itself a
string, (e) the value serialized as formatted text. -/
def extractMessageSpecOrder (v : JSVal) : JSVal :=
  if truthy (getProp (getProp v "result") "message") then
    getProp (getProp v "result") "message"
  else if truthy (getProp v "message") then
    getProp v "message"
  else if typeofIsString (getProp v "result") then
    getProp v "result"
  else if typeofIsString v then
    v
  else
    .str (jsonStringifyPretty v)

/-! Helper lemmas shared by the claim theorems. -/

lemma getPropE_obj (fs : List (String × JSVal)) (k : String) :
    getPropE (.obj fs) k = .ok (findField fs k) := rfl

lemma getPropE_of_not_nullish {v : JSVal} (h : isNullish v = false) (k : String) :
    getPropE v k = .ok (getProp v k) := by
  cases v <;> simp_all [isNullish, getPropE]

lemma isNullish_of_truthy {v : JSVal} (h : truthy v = true) : isNullish v = false := by
  cases v <;> simp_all [truthy, isNullish]

lemma truthy_jsOr (a b : JSVal) : truthy (jsOr a b) = (truthy a || truthy b) := by
  cases h : truthy a <;> simp [jsOr, h]

lemma truthy_apiStatus (n : Nat) :
    truthy (.str ("API returned status " ++ toString n)) = true := by
  simp only [truthy, Bool.not_eq_true', beq_eq_false_iff_ne, ne_eq]
  intro h
  have hd := congrArg String.data h
  rw [String.data_append] at hd
  rcases List.append_eq_nil.mp hd with ⟨h1, _⟩
  exact absurd h1 (by decide)

lemma exceptBind_ok {ε α β : Type} (a : α) (f : α → Except ε β) :
    (Except.ok a >>= f) = f a := rfl

lemma exceptBind_err {ε α β : Type} (e : ε) (f : α → Except ε β) :
    ((Except.error e : Except ε α) >>= f) = .error e := rfl

lemma exceptPure {ε α : Type} (a : α) : (pure a : Except ε α) = .ok a := rfl

lemma rawFallback_obj (fs : List (String × JSVal)) (resp : JSVal) :
    UseAgent.rawFallback (.obj fs) resp =
      .ok (if truthy (jsOr (getProp resp "raw_response") (findField fs "raw_response")) then
             UseAgent.tryParseRaw (jsOr (getProp resp "raw_response") (findField fs "raw_response"))
           else .str "No response received") := by
  cases h : truthy (jsOr (getProp resp "raw_response") (findField fs "raw_response")) <;>
    simp [UseAgent.rawFallback, getPropE_obj, h, exceptBind_ok, exceptPure]

lemma jsOr_self (a : JSVal) : jsOr a a = a := by
  unfold jsOr; split <;> rfl

lemma extract_obj_total (fs : List (String × JSVal)) :
    ∃ v, UseAgent.extractAgentMessage (.obj fs) = .ok v := by
  unfold UseAgent.extractAgentMessage
  rw [getPropE_obj, exceptBind_ok]
  by_cases hg : (truthy (findField fs "response") && typeofIsObject (findField fs "response")) = true
  · have h1 : truthy (findField fs "response") = true := by
      rcases Bool.and_eq_true_iff.mp hg with ⟨ha, _⟩
      exact ha
    have hnn := isNullish_of_truthy h1
    simp only [hg, if_true, getPropE_of_not_nullish hnn, exceptBind_ok, exceptPure]
    repeat' first
      | exact ⟨_, rawFallback_obj fs _⟩
      | exact ⟨_, rfl⟩
      | split
  · simp only [hg, if_false]
    exact ⟨_, rawFallback_obj fs _⟩

lemma detectTop_obj_total (fs : List (String × JSVal)) (ep : String) :
    ∃ od, UseAgent.detectTop (.obj fs) ep = .ok od := by
  unfold UseAgent.detectTop
  simp only [getPropE_obj, exceptBind_ok, exceptPure]
  repeat' first
    | exact ⟨_, rfl⟩
    | split

lemma detect_obj_total (fs : List (String × JSVal)) (ep : String) :
    ∃ od, UseAgent.detectError (.obj fs) ep = .ok od := by
  unfold UseAgent.detectError
  rw [getPropE_obj, exceptBind_ok]
  by_cases hg : (truthy (findField fs "response") && typeofIsObject (findField fs "response")) = true
  · have h1 : truthy (findField fs "response") = true := by
      rcases Bool.and_eq_true_iff.mp hg with ⟨ha, _⟩
      exact ha
    have hnn := isNullish_of_truthy h1
    simp only [hg, if_true, getPropE_of_not_nullish hnn, exceptBind_ok, exceptPure]
    repeat' first
      | exact detectTop_obj_total fs ep
      | exact ⟨_, rfl⟩
      | split
  · simp only [hg, if_false]
    exact detectTop_obj_total fs ep

lemma truthy_undef : truthy .undefined = false := rfl

lemma isFalseVal_false : isFalseVal (.bool false) = true := rfl

lemma isFalseVal_true : isFalseVal (.bool true) = false := rfl

lemma jsOr_undef (b : JSVal) : jsOr .undefined b = b := rfl

lemma detect_parse_fail_data (E : JSVal) (body ep : String) (hE : truthy E = true) :
    UseAgent.detectError
        (.obj [("success", .bool false), ("error", E), ("raw_response", .str body)]) ep =
      .ok (some { type := "api_error", message := E, raw_response := .str body,
                  endpoint := ep }) := by
  simp [UseAgent.detectError, UseAgent.detectTop, getPropE_obj, exceptBind_ok, exceptPure,
        findField, truthy_undef, isFalseVal_false, hE, jsOr_undef]

lemma detect_api_data (E : JSVal) (body ep : String) (hE : truthy E = true) :
    UseAgent.detectError
        (.obj [("success", .bool false), ("error", E), ("details", .str body),
               ("raw_response", .str body)]) ep =
      .ok (some { type := "api_error", message := E, raw_response := .str body,
                  endpoint := ep }) := by
  simp [UseAgent.detectError, UseAgent.detectTop, getPropE_obj, exceptBind_ok, exceptPure,
        findField, truthy_undef, isFalseVal_false, hE, jsOr_self]

lemma detect_success_data (parsed A U S T : JSVal) (body ep : String)
    (hP : (isFalseVal (getProp parsed "success") || truthy (getProp parsed "error")) = false) :
    UseAgent.detectError
        (.obj [("success", .bool true), ("response", parsed), ("agent_id", A),
               ("user_id", U), ("session_id", S), ("timestamp", T),
               ("raw_response", .str body)]) ep = .ok none := by
  have hP2 := Bool.or_eq_false_iff.mp hP
  unfold UseAgent.detectError
  rw [getPropE_obj, exceptBind_ok]
  have hfind : findField [("success", JSVal.bool true), ("response", parsed), ("agent_id", A),
      ("user_id", U), ("session_id", S), ("timestamp", T),
      ("raw_response", JSVal.str body)] "response" = parsed := rfl
  rw [hfind]
  by_cases hg : (truthy parsed && typeofIsObject parsed) = true
  · have h1 : truthy parsed = true := by
      rcases Bool.and_eq_true_iff.mp hg with ⟨ha, _⟩
      exact ha
    have hnn := isNullish_of_truthy h1
    simp [hg, getPropE_of_not_nullish hnn, exceptBind_ok, exceptPure, hP2.1, hP2.2,
          UseAgent.detectTop, getPropE_obj, findField, isFalseVal_true]
  · simp [hg, UseAgent.detectTop, getPropE_obj, exceptBind_ok, exceptPure, findField,
          isFalseVal_true]

lemma assemble_err (fs : List (String × JSVal)) (ep : String) (err : ErrorDetails)
    (hd : UseAgent.detectError (.obj fs) ep = .ok (some err)) :
    ∃ m, UseAgent.assembleResult (.obj fs) ep =
      .ok { success := false, data := .null, message := m,
            raw_response := findField fs "raw_response", error := some err } := by
  obtain ⟨m, hm⟩ := extract_obj_total fs
  refine ⟨m, ?_⟩
  simp [UseAgent.assembleResult, hd, hm, getPropE_obj, exceptBind_ok, exceptPure]

lemma assemble_none (fs : List (String × JSVal)) (ep : String)
    (hd : UseAgent.detectError (.obj fs) ep = .ok none) :
    ∃ m, UseAgent.assembleResult (.obj fs) ep =
      .ok { success := true, data := findField fs "response", message := m,
            raw_response := findField fs "raw_response", error := none } := by
  obtain ⟨m, hm⟩ := extract_obj_total fs
  refine ⟨m, ?_⟩
  simp [UseAgent.assembleResult, hd, hm, getPropE_obj, exceptBind_ok, exceptPure]

/-! Claim theorems. -/

/-- C4: given HTTP status 200 and response body consisting of the JSON
object with a result.message field equal to "hello" (the extractor returning
the value a strict JSON parse yields, which the modelled parseLLMJson does
on this body), callAgentAPI returns a success result whose message field is
"hello" and whose success flag is true. -/
theorem claim_C4_status200_hello (agentId : String) (userId sessionId : JSVal) (now : String) :
    UseAgent.callAgentAPI agentId userId sessionId now
        (.resp 200 "\x7b\"result\": \x7b\"message\": \"hello\"\x7d\x7d") =
      .ok { success := true,
            data := .obj [("result", .obj [("message", .str "hello")])],
            message := .str "hello",
            raw_response := .str "\x7b\"result\": \x7b\"message\": \"hello\"\x7d\x7d",
            error := none } := rfl

/-- C6: when the transport throws an Error with any message (in particular
"fetch failed"), the call result is classified as a network error: the
ErrorDetails type is network_error, the error's message is the underlying
transport message, and the result's data field is null; this holds for
callAgentAPI and for the hook's callAgent (their recorded endpoints
differ). -/
theorem claim_C6_network_error (m : String) (agentId : String) (userId sessionId : JSVal)
    (now : String) :
    (UseAgent.callAgentAPI agentId userId sessionId now (.thrown (.jsError m)) =
      .ok { success := false, data := .null, message := .str "Failed to connect to agent",
            raw_response := .undefined,
            error := some { type := "network_error", message := .str m, raw_response := .undefined,
                            endpoint := "/api/agent" } })
    ∧ (UseAgent.callAgent (.str "agent-1") .undefined .undefined userId sessionId now
          (.thrown (.jsError m)) =
      .ok { success := false, data := .null, message := .str "Failed to connect to agent",
            raw_response := .undefined,
            error := some { type := "network_error", message := .str m, raw_response := .undefined,
                            endpoint := UseAgent.LYZR_API_URL } }) :=
  ⟨rfl, rfl⟩

/-- C8: when no agent identifier is available from any of the three sources
(per-call, hook option, environment default - all nullish or empty), the
hook's callAgent returns a failure result with success false, data null and
the message "No agent_id provided", for every transport outcome, and throws
nothing. -/
theorem claim_C8_no_agent_id (a b c userId sessionId : JSVal) (now : String) (o : HttpOutcome)
    (h : truthy (jsOr (jsOr a b) c) = false) :
    UseAgent.callAgent a b c userId sessionId now o =
      .ok { success := false, data := .null, message := .str "No agent_id provided",
            raw_response := .undefined,
            error := some { type := "api_error", message := .str "No agent_id provided",
                            raw_response := .undefined, endpoint := UseAgent.LYZR_API_URL } } := by
  unfold UseAgent.callAgent
  simp [h]

/-- Witness for C8 at the all-absent instantiation. -/
theorem claim_C8_no_agent_id_witness :
    truthy (jsOr (jsOr .undefined .undefined) .undefined) = false ∧
    UseAgent.callAgent .undefined .undefined .undefined .undefined .undefined "t0" (.resp 200 "") =
      .ok { success := false, data := .null, message := .str "No agent_id provided",
            raw_response := .undefined,
            error := some { type := "api_error", message := .str "No agent_id provided",
                            raw_response := .undefined, endpoint := UseAgent.LYZR_API_URL } } :=
  ⟨rfl, claim_C8_no_agent_id .undefined .undefined .undefined .undefined .undefined "t0" (.resp 200 "") rfl⟩

lemma isLowerHexDigit_hexDigitChar (r : Fin 16) :
    isLowerHexDigit (hexDigitChar r.val) = true := by
  revert r; decide

lemma uuidY_mem (r : Fin 16) :
    (hexDigitChar ((r.val &&& 3) ||| 8) == '8' || hexDigitChar ((r.val &&& 3) ||| 8) == '9' ||
     hexDigitChar ((r.val &&& 3) ||| 8) == 'a' || hexDigitChar ((r.val &&& 3) ||| 8) == 'b') = true := by
  revert r; decide

/-- C10: for every sequence of random draws, generateUUID yields exactly 36
characters in the 8-4-4-4-12 pattern: hyphens at indices 8, 13, 18 and 23,
the literal 4 at index 14, one of 8, 9, a, b at index 19, and lowercase
hexadecimal digits at every other index. -/
theorem claim_C10_uuid_shape (d : Nat → Fin 16) :
    isValidUUID (AiAgent.generateUUID d) = true := by
  have h : AiAgent.generateUUID d = String.mk
      [hexDigitChar (d 0).val, hexDigitChar (d 1).val, hexDigitChar (d 2).val,
       hexDigitChar (d 3).val, hexDigitChar (d 4).val, hexDigitChar (d 5).val,
       hexDigitChar (d 6).val, hexDigitChar (d 7).val, '-',
       hexDigitChar (d 8).val, hexDigitChar (d 9).val, hexDigitChar (d 10).val,
       hexDigitChar (d 11).val, '-', '4',
       hexDigitChar (d 12).val, hexDigitChar (d 13).val, hexDigitChar (d 14).val, '-',
       hexDigitChar (((d 15).val &&& 3) ||| 8),
       hexDigitChar (d 16).val, hexDigitChar (d 17).val, hexDigitChar (d 18).val, '-',
       hexDigitChar (d 19).val, hexDigitChar (d 20).val, hexDigitChar (d 21).val,
       hexDigitChar (d 22).val, hexDigitChar (d 23).val, hexDigitChar (d 24).val,
       hexDigitChar (d 25).val, hexDigitChar (d 26).val, hexDigitChar (d 27).val,
       hexDigitChar (d 28).val, hexDigitChar (d 29).val, hexDigitChar (d 30).val] := rfl
  rw [h]
  simp [isValidUUID, validUUIDChar, List.enum, List.enumFrom,
        isLowerHexDigit_hexDigitChar, uuidY_mem]

lemma transform_cases (fid U S : JSVal) (now : String) (status : Nat) (body : String) :
    ∃ fs, UseAgent.transformData fid U S now status body = .obj fs := by
  unfold UseAgent.transformData UseAgent.transformDataWith
  repeat' first
    | exact ⟨_, rfl⟩
    | split

lemma truthy_parse_fallback (pe : JSVal) :
    truthy (jsOr pe (.str "Failed to parse agent response")) = true := by
  rw [truthy_jsOr]
  cases truthy pe <;> rfl

lemma getPropE_nullish {v : JSVal} (h : isNullish v = true) (k : String) :
    ∃ e, getPropE v k = .error e := by
  cases v <;> simp_all [isNullish, getPropE]

lemma aiErrorBranch_cases (status : Nat) (body : String) :
    (∃ r, AiAgent.aiErrorBranch status body = .ok r ∧ r.success = false ∧ truthy r.error = true)
    ∨ (∃ e, AiAgent.aiErrorBranch status body = .error e) := by
  unfold AiAgent.aiErrorBranch
  dsimp only
  cases hn : isNullish (AiAgent.aiErrorData status body) with
  | true =>
    right
    obtain ⟨e, he⟩ := getPropE_nullish hn "error"
    rw [he, exceptBind_err]
    exact ⟨e, rfl⟩
  | false =>
    left
    simp only [getPropE_of_not_nullish hn, exceptBind_ok, exceptPure]
    refine ⟨_, rfl, rfl, ?_⟩
    simp only [truthy_jsOr, truthy_apiStatus, Bool.or_true]

/-- C1: for every transport outcome (any status with any body, or any
thrown exception), callAgentAPI and callAIAgent each return a result record
- no exception escapes the call boundary - and every non-success result
carries the error in the record's error field. -/
theorem claim_C1_total_and_error_captured :
    (∀ (agentId : String) (userId sessionId : JSVal) (now : String) (o : HttpOutcome),
      ∃ r, UseAgent.callAgentAPI agentId userId sessionId now o = .ok r ∧
        (r.success = true ∨ r.error.isSome = true))
    ∧ (∀ (ms aid : String) (options : JSVal) (d : Nat → Fin 16) (now : String)
        (o : HttpOutcome),
      ∃ r, AiAgent.callAIAgent ms aid options d now o = .ok r ∧
        (r.success = true ∨ truthy r.error = true)) := by
  constructor
  · intro agentId userId sessionId now o
    cases o with
    | thrown e =>
      exact ⟨UseAgent.networkCatch "/api/agent" e, rfl, Or.inr rfl⟩
    | resp status body =>
      obtain ⟨fs, hfs⟩ := transform_cases (.str agentId) userId sessionId now status body
      simp only [UseAgent.callAgentAPI, UseAgent.callAgentAPITry, hfs]
      obtain ⟨od, hod⟩ := detect_obj_total fs UseAgent.LYZR_API_URL
      cases od with
      | none =>
        obtain ⟨m, hm⟩ := assemble_none fs _ hod
        rw [hm]
        exact ⟨_, rfl, Or.inl rfl⟩
      | some err =>
        obtain ⟨m, hm⟩ := assemble_err fs _ err hod
        rw [hm]
        exact ⟨_, rfl, Or.inr rfl⟩
  · intro ms aid options d now o
    cases o with
    | thrown e =>
      exact ⟨AiAgent.aiCatch e, rfl, Or.inr rfl⟩
    | resp status body =>
      by_cases hok : httpOk status = true
      · unfold AiAgent.callAIAgent
        simp only [hok, if_true, exceptPure]
        unfold AiAgent.aiOkBranch AiAgent.aiOkBranchWith
        split
        · exact ⟨_, rfl, Or.inr (truthy_parse_fallback _)⟩
        · exact ⟨_, rfl, Or.inl rfl⟩
      · unfold AiAgent.callAIAgent
        simp only [hok, if_false, Bool.not_eq_true] at *
        simp only [hok, Bool.false_eq_true, if_false]
        rcases aiErrorBranch_cases status body with ⟨r, hr, hs, ht⟩ | ⟨e, he⟩
        · rw [hr]
          exact ⟨r, rfl, Or.inr ht⟩
        · rw [he]
          exact ⟨AiAgent.aiCatch e, rfl, Or.inr rfl⟩

/-- C2 counterexample: at HTTP status 200 with body not json at all, the
extraction failure is classified api_error, not parse_error as claimed: the
parse-failure data record carries no nested response object, so detectError
falls through to its top-level api_error check. -/
theorem claim_C2_counterexample :
    UseAgent.callAgentAPI "agent-1" .undefined .undefined "2026-01-01T00:00:00.000Z"
        (.resp 200 "not json at all") =
      .ok { success := false, data := .null, message := .str "not json at all",
            raw_response := .str "not json at all",
            error := some { type := "api_error",
                            message := .str "Failed to extract JSON from agent response",
                            raw_response := .str "not json at all",
                            endpoint := UseAgent.LYZR_API_URL } }
    ∧ "api_error" ≠ "parse_error" :=
  ⟨rfl, by decide⟩

/-- C2 amended: for every 2xx status whose body makes the extractor return a
failure-marked value (success false or truthy error field), the call returns
a failure whose ErrorDetails has type api_error (not parse_error), whose
message is the extractor's error field (with the fixed fallback text), and
whose raw_response - in the ErrorDetails and in the result - is the original
body verbatim. -/
theorem claim_C2_amended (status : Nat) (body : String) (agentId : String)
    (userId sessionId : JSVal) (now : String)
    (hok : httpOk status = true)
    (hfail : (isFalseVal (getProp (parseLLMJson body) "success") ||
              truthy (getProp (parseLLMJson body) "error")) = true) :
    ∃ m, UseAgent.callAgentAPI agentId userId sessionId now (.resp status body) =
      .ok { success := false, data := .null, message := m,
            raw_response := .str body,
            error := some { type := "api_error",
                            message := jsOr (getProp (parseLLMJson body) "error")
                                            (.str "Failed to parse agent response"),
                            raw_response := .str body,
                            endpoint := UseAgent.LYZR_API_URL } } := by
  have hdata : UseAgent.transformData (.str agentId) userId sessionId now status body =
      .obj [("success", .bool false),
            ("error", jsOr (getProp (parseLLMJson body) "error")
                           (.str "Failed to parse agent response")),
            ("raw_response", .str body)] := by
    unfold UseAgent.transformData UseAgent.transformDataWith
    simp [hok, hfail]
  have hdet := detect_parse_fail_data
    (jsOr (getProp (parseLLMJson body) "error") (.str "Failed to parse agent response"))
    body UseAgent.LYZR_API_URL (truthy_parse_fallback _)
  obtain ⟨m, hm⟩ := assemble_err _ _ _ hdet
  refine ⟨m, ?_⟩
  simp only [UseAgent.callAgentAPI, UseAgent.callAgentAPITry, hdata, hm]
  rfl

/-- Witness for C2 amended at status 200 with body not json at all. -/
theorem claim_C2_amended_witness :
    httpOk 200 = true ∧
    (isFalseVal (getProp (parseLLMJson "not json at all") "success") ||
     truthy (getProp (parseLLMJson "not json at all") "error")) = true ∧
    ∃ m, UseAgent.callAgentAPI "agent-1" .undefined .undefined "t0" (.resp 200 "not json at all") =
      .ok { success := false, data := .null, message := m,
            raw_response := .str "not json at all",
            error := some { type := "api_error",
                            message := jsOr (getProp (parseLLMJson "not json at all") "error")
                                            (.str "Failed to parse agent response"),
                            raw_response := .str "not json at all",
                            endpoint := UseAgent.LYZR_API_URL } } :=
  ⟨rfl, rfl, claim_C2_amended 200 "not json at all" "agent-1" .undefined .undefined "t0" rfl rfl⟩

/-- C5 counterexample: at status 500 with a body that has no error field but
a message field, the ErrorDetails message is that message field, not the
templated status text the claim requires for error-field-free bodies. -/
theorem claim_C5_counterexample :
    UseAgent.callAgentAPI "agent-1" .undefined .undefined "t0"
        (.resp 500 "\x7b\"message\": \"hi\"\x7d") =
      .ok { success := false, data := .null, message := .str "hi",
            raw_response := .str "\x7b\"message\": \"hi\"\x7d",
            error := some { type := "api_error", message := .str "hi",
                            raw_response := .str "\x7b\"message\": \"hi\"\x7d",
                            endpoint := UseAgent.LYZR_API_URL } }
    ∧ (JSVal.str "hi") ≠ (.str ("API returned status " ++ toString 500)) :=
  ⟨rfl, fun h => absurd (JSVal.str.inj h) (by decide)⟩

/-- C5 amended: at status 500 with body carrying an error field "rate
limited", the call returns an api_error whose message is "rate limited" and
whose raw_response is the original body; and in general, for every non-2xx
status, the ErrorDetails type is api_error, its raw_response (and the
result's) is the original body, and its message is the extracted error
field, else the extracted message field, else the templated status text -
the message fallback reads the body's message field before falling back to
the template, which the original claim omitted. -/
theorem claim_C5_amended :
    (UseAgent.callAgentAPI "agent-1" .undefined .undefined "t0"
        (.resp 500 "\x7b\"error\": \"rate limited\"\x7d") =
      .ok { success := false, data := .null,
            message := .str "\x7b\n  \"error\": \"rate limited\"\n\x7d",
            raw_response := .str "\x7b\"error\": \"rate limited\"\x7d",
            error := some { type := "api_error", message := .str "rate limited",
                            raw_response := .str "\x7b\"error\": \"rate limited\"\x7d",
                            endpoint := UseAgent.LYZR_API_URL } })
    ∧ ∀ (status : Nat) (body : String) (agentId : String) (userId sessionId : JSVal)
        (now : String), httpOk status = false →
      ∃ m, UseAgent.callAgentAPI agentId userId sessionId now (.resp status body) =
        .ok { success := false, data := .null, message := m,
              raw_response := .str body,
              error := some { type := "api_error",
                              message := jsOr (jsOr (getProp (parseLLMJson body) "error")
                                                    (getProp (parseLLMJson body) "message"))
                                              (.str ("API returned status " ++ toString status)),
                              raw_response := .str body,
                              endpoint := UseAgent.LYZR_API_URL } } := by
  constructor
  · rfl
  · intro status body agentId userId sessionId now hok
    have hdata : UseAgent.transformData (.str agentId) userId sessionId now status body =
        .obj [("success", .bool false),
              ("error", jsOr (jsOr (getProp (parseLLMJson body) "error")
                                   (getProp (parseLLMJson body) "message"))
                             (.str ("API returned status " ++ toString status))),
              ("details", .str body),
              ("raw_response", .str body)] := by
      unfold UseAgent.transformData UseAgent.transformDataWith
      simp [hok]
    have hE : truthy (jsOr (jsOr (getProp (parseLLMJson body) "error")
                                 (getProp (parseLLMJson body) "message"))
                           (.str ("API returned status " ++ toString status))) = true := by
      simp only [truthy_jsOr, truthy_apiStatus, Bool.or_true]
    have hdet := detect_api_data
      (jsOr (jsOr (getProp (parseLLMJson body) "error") (getProp (parseLLMJson body) "message"))
            (.str ("API returned status " ++ toString status)))
      body UseAgent.LYZR_API_URL hE
    obtain ⟨m, hm⟩ := assemble_err _ _ _ hdet
    refine ⟨m, ?_⟩
    simp only [UseAgent.callAgentAPI, UseAgent.callAgentAPITry, hdata, hm]
    rfl

/-- Witness for C5 amended at status 500 with an empty-object body, where
the message falls back to the templated status text. -/
theorem claim_C5_amended_witness :
    httpOk 500 = false ∧
    ∃ m, UseAgent.callAgentAPI "agent-1" .undefined .undefined "t0" (.resp 500 "\x7b\x7d") =
      .ok { success := false, data := .null, message := m,
            raw_response := .str "\x7b\x7d",
            error := some { type := "api_error",
                            message := jsOr (jsOr (getProp (parseLLMJson "\x7b\x7d") "error")
                                                  (getProp (parseLLMJson "\x7b\x7d") "message"))
                                            (.str ("API returned status " ++ toString 500)),
                            raw_response := .str "\x7b\x7d",
                            endpoint := UseAgent.LYZR_API_URL } } :=
  ⟨rfl, claim_C5_amended.2 500 "\x7b\x7d" "agent-1" .undefined .undefined "t0" rfl⟩

/-- C3 counterexample: on a plain-string parsed value the extraction does
not follow the five-branch spec order: branch (d) would return the string
itself, but the code's string branch sits inside the object-typed guard and
never runs, so the call falls through to the raw-response fallback. -/
theorem claim_C3_counterexample :
    UseAgent.extractAgentMessage (.obj [("response", .str "hello")]) =
      .ok (.str "No response received")
    ∧ extractMessageSpecOrder (.str "hello") = .str "hello"
    ∧ (JSVal.str "No response received") ≠ (JSVal.str "hello") :=
  ⟨rfl, rfl, fun h => absurd (JSVal.str.inj h) (by decide)⟩

/-- C3 amended: for every successfully parsed response value that is a
truthy object without a failure marker, the extracted message follows the
priority order (a) nested result.message, (b) nested message, (c) nested
result when a truthy string, (e) the value serialized as formatted text;
branches a, b, c and e are each reachable; branch (d) - the whole parsed
value when it is itself a string - is unreachable, because its guard sits
inside the typeof-object guard and no value is both. -/
theorem claim_C3_amended :
    (∀ (fs : List (String × JSVal)) (resp : JSVal),
        findField fs "response" = resp →
        (truthy resp && typeofIsObject resp) = true →
        (isFalseVal (getProp resp "success") || truthy (getProp resp "error")) = false →
        UseAgent.extractAgentMessage (.obj fs) =
          .ok (if truthy (getProp (getProp resp "result") "message") then
                 getProp (getProp resp "result") "message"
               else if truthy (getProp resp "message") then getProp resp "message"
               else if truthy (getProp resp "result") && typeofIsString (getProp resp "result")
                 then getProp resp "result"
               else .str (jsonStringifyPretty resp)))
    ∧ UseAgent.extractAgentMessage
        (.obj [("response", .obj [("result", .obj [("message", .str "branch-a")])])]) =
        .ok (.str "branch-a")
    ∧ UseAgent.extractAgentMessage (.obj [("response", .obj [("message", .str "branch-b")])]) =
        .ok (.str "branch-b")
    ∧ UseAgent.extractAgentMessage (.obj [("response", .obj [("result", .str "branch-c")])]) =
        .ok (.str "branch-c")
    ∧ UseAgent.extractAgentMessage (.obj [("response", .obj [("x", .num 7)])]) =
        .ok (.str "\x7b\n  \"x\": 7\n\x7d")
    ∧ (∀ v : JSVal, typeofIsObject v = true → typeofIsString v = false) := by
  refine ⟨?_, rfl, rfl, rfl, rfl, ?_⟩
  · intro fs resp hfind hg hmark
    have h1 : truthy resp = true := by
      rcases Bool.and_eq_true_iff.mp hg with ⟨ha, _⟩
      exact ha
    have h2 : typeofIsObject resp = true := by
      rcases Bool.and_eq_true_iff.mp hg with ⟨_, hb⟩
      exact hb
    have hnn := isNullish_of_truthy h1
    have hds : typeofIsString resp = false := by
      cases resp <;> simp_all [typeofIsObject, typeofIsString]
    unfold UseAgent.extractAgentMessage
    rw [getPropE_obj, exceptBind_ok, hfind]
    simp only [hg, if_true, getPropE_of_not_nullish hnn, exceptBind_ok, hmark,
               Bool.false_eq_true, if_false, exceptPure, hds]
    split <;> first | rfl | split <;> first | rfl | split <;> rfl
  · intro v h
    cases v <;> simp_all [typeofIsObject, typeofIsString]

/-- Witness for C3 amended: branch (a) at a concrete response object. -/
theorem claim_C3_amended_witness :
    findField [("response", JSVal.obj [("result", JSVal.obj [("message", JSVal.str "A")])])]
        "response" = .obj [("result", .obj [("message", .str "A")])]
    ∧ (truthy (JSVal.obj [("result", JSVal.obj [("message", JSVal.str "A")])]) &&
       typeofIsObject (JSVal.obj [("result", JSVal.obj [("message", JSVal.str "A")])])) = true
    ∧ (isFalseVal (getProp (JSVal.obj [("result", JSVal.obj [("message", JSVal.str "A")])])
          "success") ||
       truthy (getProp (JSVal.obj [("result", JSVal.obj [("message", JSVal.str "A")])])
          "error")) = false
    ∧ UseAgent.extractAgentMessage
        (.obj [("response", .obj [("result", .obj [("message", .str "A")])])]) =
        .ok (.str "A") :=
  ⟨rfl, rfl, rfl, claim_C3_amended.1 _ _ rfl rfl rfl⟩

/-- C7 counterexample: the string "hello" is an output of
extractAgentMessage, yet feeding it back as the plain-string parsed value
yields the fixed fallback text, not "hello" - the claimed idempotence on
plain strings fails. -/
theorem claim_C7_counterexample :
    UseAgent.extractAgentMessage (.obj [("response", .obj [("message", .str "hello")])]) =
      .ok (.str "hello")
    ∧ UseAgent.extractAgentMessage (.obj [("response", .str "hello")]) =
      .ok (.str "No response received")
    ∧ (JSVal.str "No response received") ≠ (JSVal.str "hello") :=
  ⟨rfl, rfl, fun h => absurd (JSVal.str.inj h) (by decide)⟩

/-- C7 amended: a plain-string parsed value always maps to the fixed
fallback "No response received" (the string branch is dead code); the
function is instead idempotent through the raw_response slot: any truthy
output string that is not valid JSON is returned unchanged when fed back as
raw_response. -/
theorem claim_C7_amended :
    (∀ s : String, UseAgent.extractAgentMessage (.obj [("response", .str s)]) =
        .ok (.str "No response received"))
    ∧ (∀ s : String, truthy (.str s) = true → jsonParse s = none →
        UseAgent.extractAgentMessage (.obj [("raw_response", .str s)]) = .ok (.str s)) := by
  constructor
  · intro s
    unfold UseAgent.extractAgentMessage
    rw [getPropE_obj, exceptBind_ok]
    simp only [show findField [("response", JSVal.str s)] "response" = .str s from rfl]
    simp only [typeofIsObject, Bool.and_false, Bool.false_eq_true, if_false]
    rw [rawFallback_obj]
    simp [getProp, findField, jsOr_undef, truthy_undef]
  · intro s hs hp
    unfold UseAgent.extractAgentMessage
    rw [getPropE_obj, exceptBind_ok]
    simp only [show findField [("raw_response", JSVal.str s)] "response" = .undefined from rfl]
    simp only [truthy_undef, Bool.false_and, Bool.false_eq_true, if_false]
    rw [rawFallback_obj]
    simp only [getProp, jsOr_undef,
               show findField [("raw_response", JSVal.str s)] "raw_response" = .str s from rfl,
               hs, if_true]
    unfold UseAgent.tryParseRaw
    simp [jsToString, hp]

/-- Witness for C7 amended at the non-JSON output string "hello". -/
theorem claim_C7_amended_witness :
    truthy (.str "hello") = true ∧ jsonParse "hello" = none ∧
    UseAgent.extractAgentMessage (.obj [("raw_response", .str "hello")]) =
      .ok (.str "hello") :=
  ⟨rfl, rfl, claim_C7_amended.2 "hello" rfl rfl⟩

/-- C9 counterexample: a truthy non-string value in the message position is
returned verbatim, so extractAgentMessage does not always return a string. -/
theorem claim_C9_counterexample :
    UseAgent.extractAgentMessage
        (.obj [("response", .obj [("result", .obj [("message", .num 5)])])]) =
      .ok (.num 5)
    ∧ ∀ s : String, (JSVal.num 5) ≠ (JSVal.str s) :=
  ⟨rfl, fun _ h => JSVal.noConfusion h⟩

/-- C9 amended: on every object input extractAgentMessage is total - no
object input makes it throw - and whenever the input carries neither a
usable parsed response (the response slot is not a truthy object, or it is
failure-marked) nor a truthy raw_response, the result is the fixed fallback
string "No response received"; the returned value is whatever occupies the
winning extraction position and need not be a string. -/
theorem claim_C9_amended :
    (∀ fs : List (String × JSVal), ∃ v, UseAgent.extractAgentMessage (.obj fs) = .ok v)
    ∧ (∀ fs : List (String × JSVal),
        ((truthy (findField fs "response") && typeofIsObject (findField fs "response")) = false ∨
         (isFalseVal (getProp (findField fs "response") "success") ||
          truthy (getProp (findField fs "response") "error")) = true) →
        truthy (jsOr (getProp (findField fs "response") "raw_response")
                     (findField fs "raw_response")) = false →
        UseAgent.extractAgentMessage (.obj fs) = .ok (.str "No response received")) := by
  constructor
  · exact extract_obj_total
  · intro fs h1 h2
    unfold UseAgent.extractAgentMessage
    rw [getPropE_obj, exceptBind_ok]
    rcases h1 with hg | hmark
    · simp only [hg, Bool.false_eq_true, if_false]
      rw [rawFallback_obj]
      simp only [h2, Bool.false_eq_true, if_false]
    · by_cases hg : (truthy (findField fs "response") &&
          typeofIsObject (findField fs "response")) = true
      · have h1t : truthy (findField fs "response") = true := by
          rcases Bool.and_eq_true_iff.mp hg with ⟨ha, _⟩
          exact ha
        have hnn := isNullish_of_truthy h1t
        simp only [hg, if_true, getPropE_of_not_nullish hnn, exceptBind_ok, hmark, if_true]
        rw [rawFallback_obj]
        simp only [h2, Bool.false_eq_true, if_false]
      · simp only [Bool.not_eq_true] at hg
        simp only [hg, Bool.false_eq_true, if_false]
        rw [rawFallback_obj]
        simp only [h2, Bool.false_eq_true, if_false]

/-- Witness for C9 amended at the empty object. -/
theorem claim_C9_amended_witness :
    ((truthy (findField ([] : List (String × JSVal)) "response") &&
      typeofIsObject (findField ([] : List (String × JSVal)) "response")) = false ∨
     (isFalseVal (getProp (findField ([] : List (String × JSVal)) "response") "success") ||
      truthy (getProp (findField ([] : List (String × JSVal)) "response") "error")) = true)
    ∧ truthy (jsOr (getProp (findField ([] : List (String × JSVal)) "response") "raw_response")
                   (findField ([] : List (String × JSVal)) "raw_response")) = false
    ∧ UseAgent.extractAgentMessage (.obj []) = .ok (.str "No response received") :=
  ⟨Or.inl rfl, rfl, claim_C9_amended.2 [] (Or.inl rfl) rfl⟩
